import Mathlib

/-!
# Build-asset generation and update (`v3/internal/commands/build-assets.go`)

A shallow embedding of `GenerateBuildAssets`, `UpdateBuildAssets` and
`normaliseName`.  Go strings are modelled as Lean strings, that is as sequences
of Unicode code points.  Everything the Go file obtains from outside itself (the
operating system, the clock, the Unicode case table, the YAML parser, the
template extractor) is a field of `World` or an explicit argument, and every
property such a field has to satisfy is stated as a hypothesis of the theorem
that needs it.
-/

set_option autoImplicit false

namespace BuildAssets

/-! ## Strings -/

/-- The substitution `strings.ReplaceAll(name, " ", "-")` on one code point. -/
def spaceToHyphen (c : Char) : Char :=
  if c = ' ' then '-' else c

/-- The call `strings.ReplaceAll(name, " ", "-")`: the pattern is one code
point long, so every occurrence of it is replaced in place. -/
def replaceSpaces (name : String) : String :=
  ⟨name.data.map spaceToHyphen⟩

/-- The call `strings.ToLower(s)`: the rune mapping `unicode.ToLower`, passed as
`lower`, applied to every code point. -/
def stringsToLower (lower : Char → Char) (s : String) : String :=
  ⟨s.data.map lower⟩

/-- Source lines 161-163:
`return strings.ToLower(strings.ReplaceAll(name, " ", "-"))`. -/
def normaliseName (lower : Char → Char) (name : String) : String :=
  stringsToLower lower (replaceSpaces name)

/-- The reference definition in the words of the specification: lowercase the
input, then replace every space character with a hyphen. -/
def normaliseNameSpec (lower : Char → Char) (name : String) : String :=
  replaceSpaces (stringsToLower lower name)

/-- The rune mapping `unicode.ToLower` restricted to what it does on ASCII:
`A`..`Z` move to `a`..`z`, every other code point below 128 is fixed. -/
def asciiLower (c : Char) : Char :=
  if 65 ≤ c.toNat ∧ c.toNat ≤ 90 then Char.ofNat (c.toNat + 32) else c

/-- The case table agrees with `unicode.ToLower` on the ASCII range. -/
def LowerAscii (lower : Char → Char) : Prop :=
  ∀ c : Char, c.toNat < 128 → lower c = asciiLower c

/-- No code point other than the space itself is lowercased to a space. -/
def LowerSpace (lower : Char → Char) : Prop :=
  ∀ c : Char, lower c = ' ' → c = ' '

/-- Lowercasing a lowercased code point changes nothing. -/
def LowerIdem (lower : Char → Char) : Prop :=
  ∀ c : Char, lower (lower c) = lower c

/-- Decimal digit number `d` as a character. -/
def digitChar (d : Nat) : Char :=
  Char.ofNat (48 + d)

/-- The decimal digits of `n`, most significant first; `fuel` bounds the number
of digits and `n + 1` is always enough. -/
def decimalDigits : Nat → Nat → List Char
  | 0, _ => []
  | fuel + 1, n =>
    if n < 10 then [digitChar n]
    else decimalDigits fuel (n / 10) ++ [digitChar (n % 10)]

/-- The verb `%d` of `fmt.Sprintf` applied to a Go `int`: an optional minus
sign and the decimal digits of the magnitude. -/
def formatInt : Int → String
  | Int.ofNat n => ⟨decimalDigits (n + 1) n⟩
  | Int.negSucc n => ⟨'-' :: decimalDigits (n + 2) (n + 1)⟩

/-- The number a list of decimal digit characters denotes. -/
def decimalValue (ds : List Char) : Nat :=
  ds.foldl (fun acc c => 10 * acc + (c.toNat - 48)) 0

/-! ## Data model (source lines 17-52) -/

/-- The two embedded template trees, source lines 17-21: the variables
`buildAssets` (directory `build_assets`) and `updatableBuildAssets` (directory
`updatable_build_assets`). -/
inductive Tree where
  | buildAssets
  | updatableBuildAssets
deriving DecidableEq, Repr

/-- Source lines 23-35. -/
structure BuildAssetsOptions where
  Dir : String
  Name : String
  Binary : String
  ProductName : String
  ProductDescription : String
  ProductVersion : String
  ProductCompany : String
  ProductCopyright : String
  ProductComments : String
  ProductIdentifier : String
  Silent : Bool
deriving DecidableEq, Repr

/-- The values of the `default` struct tags of `BuildAssetsOptions` (source
lines 24-34), which the command-line flag binder reads before it calls
`GenerateBuildAssets`; a field without a tag has its zero value. -/
def BuildAssetsOptions.tagDefaults : BuildAssetsOptions where
  Dir := "."
  Name := ""
  Binary := ""
  ProductName := "My Product"
  ProductDescription := "My Product Description"
  ProductVersion := "0.1.0"
  ProductCompany := "My Company"
  ProductCopyright := "© now, My Company"
  ProductComments := "This is a comment"
  ProductIdentifier := ""
  Silent := false

/-- Source lines 37-41. -/
structure UpdateBuildAssetsOptions where
  Dir : String
  Config : String
  Silent : Bool
deriving DecidableEq, Repr

/-- Source lines 43-52. -/
structure Config where
  Binary : String
  ProductCompany : String
  ProductName : String
  ProductIdentifier : String
  ProductDescription : String
  ProductVersion : String
  ProductCopyright : String
  ProductComments : String
deriving DecidableEq, Repr

/-- The value handed to the template extractor as template data: the options
struct in `GenerateBuildAssets` (line 94 and 102), the decoded `Config` in
`UpdateBuildAssets` (line 149). -/
inductive Params where
  | options (o : BuildAssetsOptions)
  | config (c : Config)
deriving DecidableEq, Repr

/-- One call of the template extractor: which tree, into which directory, with
which template data. -/
structure RenderCall where
  tree : Tree
  dir : String
  params : Params
deriving DecidableEq, Repr

/-! ## Errors and the filesystem -/

/-- A Go `error` value: its message, and whether `os.IsNotExist` holds of it. -/
structure GoError where
  msg : String
  notExist : Bool
deriving DecidableEq, Repr

/-- The call `os.IsNotExist(err)`; `none` is the nil error. -/
def osIsNotExist : Option GoError → Bool
  | none => false
  | some e => e.notExist

/-- The call `fmt.Errorf(msg)` with the message already formatted. -/
def fmtErrorf (msg : String) : GoError :=
  ⟨msg, false⟩

/-- What a path names in the filesystem. -/
inductive Node where
  | dir
  | file (content : String)
deriving DecidableEq, Repr

/-- A filesystem state: what each path names, if anything. -/
abbrev FileSys := String → Option Node

/-- Everything the Go file reads from its surroundings. -/
structure World where
  /-- The constant `runtime.GOOS`. -/
  GOOS : String
  /-- The value of `time.Now().Year()`. -/
  year : Int
  /-- The rune mapping `unicode.ToLower` behind `strings.ToLower`. -/
  toLower : Char → Char
  /-- The function `filepath.Abs`: the path it returns and its error. -/
  Abs : String → String × Option GoError
  /-- The function `filepath.Join` on two elements. -/
  Join : String → String → String
  /-- The function `filepath.IsAbs`. -/
  IsAbs : String → Bool
  /-- The proper ancestors of a path, the directories `os.MkdirAll` creates on
  the way when they are missing. -/
  ancestors : String → List String
  /-- An error `os.Stat` reports for a path for a reason other than what the
  filesystem state holds (permissions, input/output errors). -/
  statFault : String → Option GoError
  /-- An error that makes `os.MkdirAll` fail on a path. -/
  mkdirFault : String → Option GoError
  /-- An error that makes `os.ReadFile` fail on a path. -/
  readFault : String → Option GoError
  /-- An error that makes writing a file at a path fail. -/
  writeFault : String → Option GoError
  /-- The error of `fs.Sub` on an embedded tree, nil when it succeeds. -/
  Sub : Tree → Option GoError
  /-- The YAML parser behind `yaml.Unmarshal`: the top-level mapping of a
  document as a list of keys and scalar values, or a syntax error. -/
  parseYaml : String → Except GoError (List (String × String))

/-- The error of `os.Stat(p)`, nil when the path can be inspected and exists. -/
def osStat (w : World) (fs : FileSys) (p : String) : Option GoError :=
  match w.statFault p with
  | some e => some e
  | none =>
    match fs p with
    | some _ => none
    | none => some ⟨"stat " ++ p ++ ": no such file or directory", true⟩

/-- Whether a path names a regular file. -/
def isFile : Option Node → Bool
  | some (Node.file _) => true
  | _ => false

/-- The call `os.MkdirAll(p, 0755)`: it fails when the world injects an error or
when the path or one of its ancestors is a regular file; otherwise the path and
all its ancestors are directories afterwards and every other path is as before.
A failing call is modelled as leaving the state as it was. -/
def osMkdirAll (w : World) (fs : FileSys) (p : String) : FileSys × Option GoError :=
  match w.mkdirFault p with
  | some e => (fs, some e)
  | none =>
    if (p :: w.ancestors p).any (fun q => isFile (fs q)) then
      (fs, some ⟨"mkdir " ++ p ++ ": not a directory", false⟩)
    else
      (fun q => if q ∈ p :: w.ancestors p then some Node.dir else fs q, none)

/-- The call `os.ReadFile(p)`. -/
def osReadFile (w : World) (fs : FileSys) (p : String) : Except GoError String :=
  match w.readFault p with
  | some e => Except.error e
  | none =>
    match fs p with
    | some (Node.file content) => Except.ok content
    | some Node.dir => Except.error ⟨"read " ++ p ++ ": is a directory", false⟩
    | none => Except.error ⟨"open " ++ p ++ ": no such file or directory", true⟩

/-- The value of a key in a parsed YAML mapping, the zero value when the key is
missing. -/
def fieldOf (kv : List (String × String)) (key : String) : String :=
  (kv.lookup key).getD ""

/-- Filling a zero `Config` from a parsed mapping by the `yaml` struct tags of
source lines 44-51; keys without a tag are ignored. -/
def Config.ofFields (kv : List (String × String)) : Config where
  Binary := fieldOf kv "binaryName"
  ProductCompany := fieldOf kv "companyName"
  ProductName := fieldOf kv "productName"
  ProductIdentifier := fieldOf kv "productIdentifier"
  ProductDescription := fieldOf kv "description"
  ProductVersion := fieldOf kv "productVersion"
  ProductCopyright := fieldOf kv "copyright"
  ProductComments := fieldOf kv "comments"

/-- The call `yaml.Unmarshal(config, &configData)` on a zero `configData`. -/
def yamlUnmarshal (w : World) (config : String) : Except GoError Config :=
  match w.parseYaml config with
  | Except.error e => Except.error e
  | Except.ok kv => Except.ok (Config.ofFields kv)

/-- The text `fmt.Printf("%+v\n", configData)` prints (line 147). -/
def formatConfig (c : Config) : String :=
  "\x7bBinary:" ++ c.Binary ++ " ProductCompany:" ++ c.ProductCompany ++
  " ProductName:" ++ c.ProductName ++ " ProductIdentifier:" ++ c.ProductIdentifier ++
  " ProductDescription:" ++ c.ProductDescription ++ " ProductVersion:" ++ c.ProductVersion ++
  " ProductCopyright:" ++ c.ProductCopyright ++ " ProductComments:" ++ c.ProductComments ++ "\x7d\n"

/-! ## Program state -/

/-- The call `gosod.New(tfs).Extract(dir, data)`: the filesystem it leaves
behind and its error. -/
abbrev Extractor := Tree → String → Params → FileSys → FileSys × Option GoError

/-- The mutable surroundings of a call: the filesystem, the extractor calls
made so far, what was printed, and the package variable `DisableFooter`. -/
structure State where
  fs : FileSys
  trace : List RenderCall
  console : List String
  DisableFooter : Bool

/-- What a call leaves behind: the options struct behind the pointer argument,
the state, and the returned error (`none` is nil). -/
structure Outcome (α : Type) where
  options : α
  state : State
  err : Option GoError

/-- The result of the directory block shared by both commands. -/
structure DirResult where
  dir : String
  fs : FileSys
  err : Option GoError

/-- Source lines 57-69 of `GenerateBuildAssets` and, statement for statement
the same, lines 112-124 of `UpdateBuildAssets`: make the directory absolute,
and create it when `os.Stat` reports that it does not exist.  The field `dir`
is the new value of `options.Dir`; a nil `err` means the function goes on. -/
def resolveDir (w : World) (dir : String) (fs : FileSys) : DirResult :=
  match w.Abs dir with
  | (dir, some err) => ⟨dir, fs, some err⟩
  | (dir, none) =>
    if osIsNotExist (osStat w fs dir) then
      match osMkdirAll w fs dir with
      | (fs, some err) => ⟨dir, fs, some err⟩
      | (fs, none) => ⟨dir, fs, none⟩
    else ⟨dir, fs, none⟩

/-- Source lines 71-84 of `GenerateBuildAssets`: the three derived defaults. -/
def applyDefaults (w : World) (options : BuildAssetsOptions) : BuildAssetsOptions :=
  let options :=
    if options.ProductComments = "" then
      { options with
        ProductComments := "(c) " ++ formatInt w.year ++ " " ++ options.ProductCompany }
    else options
  let options :=
    if options.ProductIdentifier = "" then
      { options with
        ProductIdentifier := "com.wails." ++ normaliseName w.toLower options.Name }
    else options
  if options.Binary = "" then
    let binary := normaliseName w.toLower options.Name
    { options with Binary := if w.GOOS = "windows" then binary ++ ".exe" else binary }
  else options

/-- One extractor call made from state `s`: the filesystem is replaced by what
the extractor leaves and the call is appended to the trace. -/
def extract (gosod : Extractor) (tree : Tree) (dir : String) (params : Params)
    (s : State) : State × Option GoError :=
  match gosod tree dir params s.fs with
  | (fs, err) => ({ s with fs := fs, trace := s.trace ++ [⟨tree, dir, params⟩] }, err)

/-- The builtin `println(line)`. -/
def println (line : String) (s : State) : State :=
  { s with console := s.console ++ [line ++ "\n"] }

/-- Source lines 54-103. -/
def GenerateBuildAssets (w : World) (gosod : Extractor) (options : BuildAssetsOptions)
    (s : State) : Outcome BuildAssetsOptions :=
  let s := { s with DisableFooter := true }
  match resolveDir w options.Dir s.fs with
  | ⟨dir, fs, some err⟩ => ⟨{ options with Dir := dir }, { s with fs := fs }, some err⟩
  | ⟨dir, fs, none⟩ =>
    let options := applyDefaults w { options with Dir := dir }
    let s := { s with fs := fs }
    match w.Sub Tree.buildAssets with
    | some err => ⟨options, s, some err⟩
    | none =>
      let s := if options.Silent then s else println ("Generating build assets in " ++ options.Dir) s
      match extract gosod Tree.buildAssets options.Dir (Params.options options) s with
      | (s, some err) => ⟨options, s, some err⟩
      | (s, none) =>
        match w.Sub Tree.updatableBuildAssets with
        | some err => ⟨options, s, some err⟩
        | none =>
          match extract gosod Tree.updatableBuildAssets options.Dir (Params.options options) s with
          | (s, err) => ⟨options, s, err⟩

/-- Source lines 105-159. -/
def UpdateBuildAssets (w : World) (gosod : Extractor) (options : UpdateBuildAssetsOptions)
    (s : State) : Outcome UpdateBuildAssetsOptions :=
  let s := { s with DisableFooter := true }
  if options.Config = "" then
    ⟨options, s, some (fmtErrorf "config file required for update")⟩
  else
    match resolveDir w options.Dir s.fs with
    | ⟨dir, fs, some err⟩ => ⟨{ options with Dir := dir }, { s with fs := fs }, some err⟩
    | ⟨dir, fs, none⟩ =>
      let options := { options with Dir := dir }
      let s := { s with fs := fs }
      match w.Sub Tree.updatableBuildAssets with
      | some err => ⟨options, s, some err⟩
      | none =>
        let configFile := w.Join options.Dir options.Config
        if osIsNotExist (osStat w s.fs configFile) then
          ⟨options, s, some (fmtErrorf ("config file " ++ configFile ++ " does not exist"))⟩
        else
          match osReadFile w s.fs configFile with
          | Except.error err => ⟨options, s, some err⟩
          | Except.ok config =>
            match yamlUnmarshal w config with
            | Except.error err => ⟨options, s, some err⟩
            | Except.ok configData =>
              let s := { s with console := s.console ++ [formatConfig configData] }
              match extract gosod Tree.updatableBuildAssets options.Dir (Params.config configData) s with
              | (s, some err) => ⟨options, s, some err⟩
              | (s, none) =>
                let s :=
                  if options.Silent then s
                  else println ("Successfully updated build assets in " ++ options.Dir) s
                ⟨options, s, none⟩

/-! ## The template trees and the extractor, from the specification

The embedded directories `build_assets` and `updatable_build_assets` and the
extractor library are not among the sources.  The definitions of this section
follow sections 3, 4.2, 4.3 and 6 of the specification. -/

/-- Modelled from the spec: an entry of a template tree (section 3,
"TemplateTree"), which is missing from the sources: a relative path and a
template whose substitution of the bound parameters gives the file content or
fails. -/
structure Entry where
  rel : String
  render : Params → Except GoError String

/-- The eight snapshot fields of the template data; the options struct and the
`Config` struct name them alike (source lines 26-33 and 44-51). -/
def Params.snapshot : Params → Config
  | Params.options o =>
    { Binary := o.Binary
      ProductCompany := o.ProductCompany
      ProductName := o.ProductName
      ProductIdentifier := o.ProductIdentifier
      ProductDescription := o.ProductDescription
      ProductVersion := o.ProductVersion
      ProductCopyright := o.ProductCopyright
      ProductComments := o.ProductComments }
  | Params.config c => c

/-- The mapping a `Config` is stored as, keyed by the `yaml` struct tags of
source lines 44-51. -/
def Config.fields (c : Config) : List (String × String) :=
  [("binaryName", c.Binary), ("companyName", c.ProductCompany),
   ("productName", c.ProductName), ("productIdentifier", c.ProductIdentifier),
   ("description", c.ProductDescription), ("productVersion", c.ProductVersion),
   ("copyright", c.ProductCopyright), ("comments", c.ProductComments)]

/-- Modelled from the spec: the two template trees (section 2), which are
missing from the sources.  The evolving tree holds the config snapshot as one of
its entries (section 4.3), here between `evolvingBefore` and `evolvingAfter`;
`printYaml` is the encoding half of the serialization capability of section 6. -/
structure Templates where
  foundation : List Entry
  evolvingBefore : List Entry
  evolvingAfter : List Entry
  snapshotName : String
  printYaml : List (String × String) → String

/-- Modelled from the spec: the snapshot entry of the evolving tree (section
4.3, "the snapshot file is itself one of the evolving tree's templated entries,
bound against the full parameter set"), which is missing from the sources. -/
def Templates.snapshotEntry (t : Templates) : Entry where
  rel := t.snapshotName
  render := fun params => Except.ok (t.printYaml (Config.fields params.snapshot))

/-- Modelled from the spec: the entries of each tree in extraction order; the
embedded directories are missing from the sources. -/
def Templates.entries (t : Templates) : Tree → List Entry
  | Tree.buildAssets => t.foundation
  | Tree.updatableBuildAssets => t.evolvingBefore ++ t.snapshotEntry :: t.evolvingAfter

/-- Writing a file: the path names a file with this content afterwards and all
other paths are as before. -/
def writeFile (fs : FileSys) (p : String) (content : String) : FileSys :=
  fun q => if q = p then some (Node.file content) else fs q

/-- Modelled from the spec: extraction of a list of entries (section 4.2), which
is missing from the sources: every entry is rendered with the bound parameters
and written under the destination directory, overwriting what is there; the
first substitution or write failure aborts the extraction and keeps what was
written before it.  Directories that hold nested entries are not tracked. -/
def writeAll (w : World) (dir : String) (params : Params) :
    List Entry → FileSys → FileSys × Option GoError
  | [], fs => (fs, none)
  | e :: es, fs =>
    match e.render params with
    | Except.error err => (fs, some err)
    | Except.ok text =>
      match w.writeFault (w.Join dir e.rel) with
      | some err => (fs, some err)
      | none => writeAll w dir params es (writeFile fs (w.Join dir e.rel) text)

/-- Modelled from the spec: the extraction capability `extract(tree,
destinationDir, params)` of section 6 over given template trees; the extractor
library is missing from the sources. -/
def specExtract (w : World) (t : Templates) : Extractor :=
  fun tree dir params fs => writeAll w dir params (t.entries tree) fs

/-! ## A concrete world for examples -/

/-- The proper ancestors of a slash-separated absolute path, nearest last. -/
def slashAncestors : List Char → List Char → List String
  | _, [] => []
  | seen, c :: rest =>
    (if c = '/' then [if seen = [] then "/" else String.mk seen.reverse] else []) ++
      slashAncestors (c :: seen) rest

/-- Splitting a list of characters at every occurrence of a separator. -/
def splitAt (sep : Char) : List Char → List (List Char)
  | [] => [[]]
  | c :: cs =>
    if c = sep then [] :: splitAt sep cs
    else
      match splitAt sep cs with
      | [] => [[c]]
      | l :: ls => (c :: l) :: ls

/-- A line-oriented stand-in for a YAML encoder: one `key: value` per line. -/
def printLines (kv : List (String × String)) : String :=
  String.join (kv.map fun p => p.1 ++ ": " ++ p.2 ++ "\n")

/-- One `key: value` line. -/
def parseLine (line : List Char) : String × String :=
  (String.mk (line.takeWhile fun c => c ≠ ':'),
   String.mk ((line.dropWhile fun c => c ≠ ':').drop 2))

/-- The decoder for `printLines`. -/
def parseLines (text : String) : Except GoError (List (String × String)) :=
  Except.ok (((splitAt (Char.ofNat 10) text.data).filter fun l => l ≠ []).map parseLine)

/-- A POSIX-like world without faults: working directory `/work`, year 2024. -/
def posix : World where
  GOOS := "linux"
  year := 2024
  toLower := asciiLower
  Abs := fun p =>
    if p.data.head? = some '/' then (p, none)
    else if p = "." then ("/work", none)
    else ("/work/" ++ p, none)
  Join := fun a b => a ++ "/" ++ b
  IsAbs := fun p => p.data.head? = some '/'
  ancestors := fun p => slashAncestors [] p.data
  statFault := fun _ => none
  mkdirFault := fun _ => none
  readFault := fun _ => none
  writeFault := fun _ => none
  Sub := fun _ => none
  parseYaml := parseLines

/-- The same world built for Windows. -/
def posixWindows : World :=
  { posix with GOOS := "windows" }

/-- The same world, except that `os.Stat` is denied on `/work/locked`. -/
def posixDenied : World :=
  { posix with
    statFault := fun p =>
      if p = "/work/locked" then some ⟨"stat /work/locked: permission denied", false⟩
      else none }

/-- Small template trees: one foundation file, one evolving file and the
snapshot `appdata.yaml`. -/
def sampleTemplates : Templates where
  foundation := [⟨"Taskfile.yml", fun _ => Except.ok "build"⟩]
  evolvingBefore := [⟨"Info.plist", fun p => Except.ok p.snapshot.ProductName⟩]
  evolvingAfter := []
  snapshotName := "appdata.yaml"
  printYaml := printLines

/-- A filesystem that holds the directories `/` and `/work` only. -/
def workFS : FileSys :=
  fun p => if p = "/" ∨ p = "/work" then some Node.dir else none

/-- A state over `workFS` with nothing rendered or printed yet. -/
def workState : State where
  fs := workFS
  trace := []
  console := []
  DisableFooter := false

/-- Options with a project name and a company and nothing else. -/
def sampleOptions : BuildAssetsOptions where
  Dir := "build"
  Name := "My App"
  Binary := ""
  ProductName := ""
  ProductDescription := ""
  ProductVersion := ""
  ProductCompany := "Acme"
  ProductCopyright := ""
  ProductComments := ""
  ProductIdentifier := ""
  Silent := true

/-- Options with every field supplied. -/
def fullOptions : BuildAssetsOptions where
  Dir := "build"
  Name := "My App"
  Binary := "my-app"
  ProductName := "My App"
  ProductDescription := "An app"
  ProductVersion := "1.2.3"
  ProductCompany := "Acme"
  ProductCopyright := "(c) Acme"
  ProductComments := "none"
  ProductIdentifier := "com.acme.my-app"
  Silent := true

/-! # Theorems -/

/-! ## Strings: lemmas -/

theorem asciiLower_upper (c : Char) (h : 65 ≤ c.toNat ∧ c.toNat ≤ 90) :
    (asciiLower c).toNat = c.toNat + 32 := by
  have hc : c = Char.ofNat c.toNat := (Char.ofNat_toNat c).symm
  obtain ⟨h1, h2⟩ := h
  generalize c.toNat = n at hc h1 h2
  subst hc
  interval_cases n <;> decide

theorem asciiLower_other (c : Char) (h : ¬ (65 ≤ c.toNat ∧ c.toNat ≤ 90)) :
    asciiLower c = c := by
  unfold asciiLower
  rw [if_neg h]

theorem lowerAscii_asciiLower : LowerAscii asciiLower :=
  fun _ _ => rfl

theorem lowerIdem_asciiLower : LowerIdem asciiLower := by
  intro c
  by_cases h : 65 ≤ c.toNat ∧ c.toNat ≤ 90
  · have h2 := asciiLower_upper c h
    exact asciiLower_other _ (by omega)
  · rw [asciiLower_other c h, asciiLower_other c h]

theorem lowerSpace_asciiLower : LowerSpace asciiLower := by
  intro c h
  by_cases hc : 65 ≤ c.toNat ∧ c.toNat ≤ 90
  · have h2 := asciiLower_upper c hc
    rw [h] at h2
    have h3 : (' ' : Char).toNat = 32 := by decide
    omega
  · rw [← asciiLower_other c hc]
    exact h

theorem lower_hyphen (lower : Char → Char) (ha : LowerAscii lower) : lower '-' = '-' := by
  rw [ha '-' (by decide)]
  decide

theorem lower_space (lower : Char → Char) (ha : LowerAscii lower) : lower ' ' = ' ' := by
  rw [ha ' ' (by decide)]
  decide

theorem spaceToHyphen_ne_space (c : Char) : spaceToHyphen c ≠ ' ' := by
  unfold spaceToHyphen
  split
  · decide
  · assumption

theorem spaceToHyphen_other (c : Char) (h : c ≠ ' ') : spaceToHyphen c = c := by
  unfold spaceToHyphen
  rw [if_neg h]

/-- On one code point, replacing and then lowercasing is lowercasing and then
replacing. -/
theorem lower_spaceToHyphen (lower : Char → Char) (ha : LowerAscii lower)
    (hs : LowerSpace lower) (c : Char) :
    lower (spaceToHyphen c) = spaceToHyphen (lower c) := by
  by_cases h : c = ' '
  · subst h
    rw [lower_space lower ha]
    have h1 : spaceToHyphen ' ' = '-' := by decide
    rw [h1, lower_hyphen lower ha]
  · have h2 : lower c ≠ ' ' := fun hc => h (hs c hc)
    rw [spaceToHyphen_other c h, spaceToHyphen_other _ h2]

theorem normaliseName_data (lower : Char → Char) (name : String) :
    (normaliseName lower name).data = name.data.map (fun c => lower (spaceToHyphen c)) := by
  simp [normaliseName, stringsToLower, replaceSpaces]

theorem normaliseName_append (lower : Char → Char) (a b : String) :
    normaliseName lower (a ++ b) = normaliseName lower a ++ normaliseName lower b := by
  apply String.ext
  simp [normaliseName_data]

theorem lower_after_replace_ascii (lower : Char → Char) (ha : LowerAscii lower) (c : Char)
    (hc : c.toNat < 128) : lower (spaceToHyphen c) = asciiLower (spaceToHyphen c) := by
  by_cases h : c = ' '
  · subst h; exact ha _ (by decide)
  · rw [spaceToHyphen_other c h]; exact ha c hc

theorem normaliseName_my_app (lower : Char → Char) (ha : LowerAscii lower) :
    normaliseName lower "My App" = "my-app" := by
  apply String.ext
  rw [normaliseName_data]
  have e := lower_after_replace_ascii lower ha
  simp only [List.map, e 'M' (by decide), e 'y' (by decide), e ' ' (by decide),
    e 'A' (by decide), e 'p' (by decide)]
  decide

theorem normaliseName_my_app_fixed (lower : Char → Char) (ha : LowerAscii lower) :
    normaliseName lower "my-app" = "my-app" := by
  apply String.ext
  rw [normaliseName_data]
  have e := lower_after_replace_ascii lower ha
  simp only [List.map, e 'm' (by decide), e 'y' (by decide), e '-' (by decide),
    e 'a' (by decide), e 'p' (by decide)]
  decide

/-! ## Decimal digits: lemmas -/

theorem digitChar_toNat (d : Nat) (h : d < 10) : (digitChar d).toNat - 48 = d := by
  interval_cases d <;> decide

theorem decimalValue_append (ds : List Char) (c : Char) :
    decimalValue (ds ++ [c]) = 10 * decimalValue ds + (c.toNat - 48) := by
  simp [decimalValue, List.foldl_append]

/-- The digits produced with enough fuel denote the number. -/
theorem decimalValue_decimalDigits (fuel n : Nat) (h : n < fuel) :
    decimalValue (decimalDigits fuel n) = n := by
  induction fuel generalizing n with
  | zero => omega
  | succ fuel ih =>
    unfold decimalDigits
    split
    · rename_i hn
      simp [decimalValue, digitChar_toNat n hn]
    · rw [decimalValue_append, ih (n / 10) (by omega),
        digitChar_toNat (n % 10) (Nat.mod_lt n (by decide))]
      omega

/-- The text `%d` prints for a year that is not negative denotes the year. -/
theorem decimalValue_formatInt (y : Int) (h : 0 ≤ y) :
    decimalValue (formatInt y).data = y.toNat := by
  cases y with
  | ofNat n => exact decimalValue_decimalDigits (n + 1) n (by omega)
  | negSucc n => exact absurd h (by simp)

/-! ## Name normalisation -/

/-- C4: for every case table that lowercases ASCII as `unicode.ToLower` does and
maps no other code point to a space, and for every string `name`,
`normaliseName name` (replace every space by a hyphen, then lowercase) equals
the reference definition of the specification (lowercase, then replace every
space by a hyphen); the result has as many code points as `name`; a code point
that is neither a space nor changed by lowercasing is found unaltered at the
same position, a space is found as a hyphen at the same position, and a run of
`k` spaces between two strings becomes a run of `k` hyphens between their
normalisations. -/
theorem normaliseName_refines_spec (lower : Char → Char) (ha : LowerAscii lower)
    (hs : LowerSpace lower) (name : String) :
    normaliseName lower name = normaliseNameSpec lower name ∧
    (normaliseName lower name).data.length = name.data.length ∧
    (∀ (i : Nat) (c : Char), name.data[i]? = some c → c ≠ ' ' → lower c = c →
      (normaliseName lower name).data[i]? = some c) ∧
    (∀ i : Nat, name.data[i]? = some ' ' →
      (normaliseName lower name).data[i]? = some '-') ∧
    (∀ (a b : String) (k : Nat), name = a ++ String.mk (List.replicate k ' ') ++ b →
      normaliseName lower name =
        normaliseName lower a ++ String.mk (List.replicate k '-') ++ normaliseName lower b) := by
  refine ⟨?_, ?_, ?_, ?_, ?_⟩
  · apply String.ext
    rw [normaliseName_data]
    simp only [normaliseNameSpec, stringsToLower, replaceSpaces, List.map_map]
    apply List.map_congr_left
    intro c _
    exact lower_spaceToHyphen lower ha hs c
  · simp [normaliseName_data]
  · intro i c hi hc hl
    rw [normaliseName_data, List.getElem?_map, hi]
    simp [spaceToHyphen_other c hc, hl]
  · intro i hi
    rw [normaliseName_data, List.getElem?_map, hi]
    have h1 : spaceToHyphen ' ' = '-' := by decide
    simp [h1, lower_hyphen lower ha]
  · intro a b k hname
    subst hname
    rw [normaliseName_append, normaliseName_append]
    congr 2
    apply String.ext
    rw [normaliseName_data]
    have h1 : spaceToHyphen ' ' = '-' := by decide
    simp [h1, lower_hyphen lower ha]

/-- Witness of C4: the ASCII case table on `"My  App!"`. -/
theorem normaliseName_refines_spec_witness :
    LowerAscii asciiLower ∧ LowerSpace asciiLower ∧
    normaliseName asciiLower "My  App!" = normaliseNameSpec asciiLower "My  App!" ∧
    normaliseName asciiLower "My  App!" = "my--app!" :=
  ⟨lowerAscii_asciiLower, lowerSpace_asciiLower,
    (normaliseName_refines_spec asciiLower lowerAscii_asciiLower lowerSpace_asciiLower
      "My  App!").1, by decide⟩

/-- C5: for every case table that lowercases ASCII as `unicode.ToLower` does,
maps no other code point to a space and fixes what it has lowercased, name
normalisation is idempotent, `normaliseName (normaliseName s) = normaliseName s`
for every string `s`; and `normaliseName "My App" = "my-app"`,
`normaliseName "my-app" = "my-app"`, `normaliseName "" = ""`. -/
theorem normaliseName_idempotent (lower : Char → Char) (ha : LowerAscii lower)
    (hs : LowerSpace lower) (hi : LowerIdem lower) :
    (∀ s : String, normaliseName lower (normaliseName lower s) = normaliseName lower s) ∧
    normaliseName lower "My App" = "my-app" ∧
    normaliseName lower "my-app" = "my-app" ∧
    normaliseName lower "" = "" := by
  refine ⟨?_, ?_, ?_, ?_⟩
  · intro s
    apply String.ext
    rw [normaliseName_data, normaliseName_data, List.map_map]
    apply List.map_congr_left
    intro c _
    have h1 : lower (spaceToHyphen c) ≠ ' ' :=
      fun h => spaceToHyphen_ne_space c (hs _ h)
    simp only [Function.comp_apply]
    rw [spaceToHyphen_other _ h1, hi]
  · exact normaliseName_my_app lower ha
  · exact normaliseName_my_app_fixed lower ha
  · rfl

/-- Witness of C5: the ASCII case table, on `"My App"` normalised twice. -/
theorem normaliseName_idempotent_witness :
    LowerAscii asciiLower ∧ LowerSpace asciiLower ∧ LowerIdem asciiLower ∧
    normaliseName asciiLower (normaliseName asciiLower "My App") =
      normaliseName asciiLower "My App" ∧
    normaliseName asciiLower "My App" = "my-app" :=
  ⟨lowerAscii_asciiLower, lowerSpace_asciiLower, lowerIdem_asciiLower,
    (normaliseName_idempotent asciiLower lowerAscii_asciiLower lowerSpace_asciiLower
      lowerIdem_asciiLower).1 "My App",
    (normaliseName_idempotent asciiLower lowerAscii_asciiLower lowerSpace_asciiLower
      lowerIdem_asciiLower).2.1⟩

/-! ## The directory block: lemmas -/

theorem resolveDir_dir (w : World) (dir : String) (fs : FileSys) :
    (resolveDir w dir fs).dir = (w.Abs dir).1 := by
  unfold resolveDir
  split
  · rename_i h; simp [h]
  · rename_i h
    simp only [h]
    split
    · split <;> rfl
    · rfl

theorem resolveDir_abs_error (w : World) (dir : String) (fs : FileSys) (e : GoError)
    (h : (w.Abs dir).2 = some e) :
    (resolveDir w dir fs).err = some e ∧ (resolveDir w dir fs).fs = fs := by
  unfold resolveDir
  split
  · rename_i h1
    rw [h1] at h
    simp at h
    simp [h]
  · rename_i h1
    rw [h1] at h
    simp at h

theorem resolveDir_abs_ok (w : World) (dir : String) (fs : FileSys)
    (h : (w.Abs dir).2 = none) :
    resolveDir w dir fs =
      if osIsNotExist (osStat w fs (w.Abs dir).1) then
        ⟨(w.Abs dir).1, (osMkdirAll w fs (w.Abs dir).1).1, (osMkdirAll w fs (w.Abs dir).1).2⟩
      else ⟨(w.Abs dir).1, fs, none⟩ := by
  unfold resolveDir
  split
  · rename_i h1
    rw [h1] at h
    simp at h
  · rename_i h1
    simp only [h1]
    split
    · split <;> rename_i h2 <;> simp [h2]
    · rfl

theorem resolveDir_err_none (w : World) (dir : String) (fs : FileSys)
    (h : (resolveDir w dir fs).err = none) : (w.Abs dir).2 = none := by
  cases ha : (w.Abs dir).2 with
  | none => rfl
  | some e =>
    rw [(resolveDir_abs_error w dir fs e ha).1] at h
    simp at h

/-! ## `GenerateBuildAssets`: lemmas -/

theorem generate_dir_error (w : World) (gosod : Extractor) (o : BuildAssetsOptions)
    (s : State) (e : GoError) (h : (resolveDir w o.Dir s.fs).err = some e) :
    (GenerateBuildAssets w gosod o s).err = some e ∧
    (GenerateBuildAssets w gosod o s).state.trace = s.trace := by
  unfold GenerateBuildAssets
  simp only
  split
  · rename_i h1
    rw [h1] at h
    simp at h
    simp [h]
  · rename_i h1
    rw [h1] at h
    simp at h

theorem generate_options (w : World) (gosod : Extractor) (o : BuildAssetsOptions)
    (s : State) (h : (resolveDir w o.Dir s.fs).err = none) :
    (GenerateBuildAssets w gosod o s).options =
      applyDefaults w { o with Dir := (w.Abs o.Dir).1 } := by
  have hd := resolveDir_dir w o.Dir s.fs
  unfold GenerateBuildAssets
  simp only
  split
  · rename_i h1
    rw [h1] at h
    simp at h
  · rename_i h1
    rw [h1] at hd
    simp only at hd
    subst hd
    split
    · rfl
    · split
      · rfl
      · split
        · rfl
        · rfl

theorem applyDefaults_Dir (w : World) (o : BuildAssetsOptions) :
    (applyDefaults w o).Dir = o.Dir := by
  unfold applyDefaults
  simp only
  split_ifs <;> rfl

theorem println_trace (line : String) (s : State) : (println line s).trace = s.trace := rfl

theorem println_fs (line : String) (s : State) : (println line s).fs = s.fs := rfl

/-- The extractor calls of `GenerateBuildAssets`: a prefix of the foundation
call followed by the evolving call, both with the options left behind; both are
made when no error is returned, and the first is made whenever the directory
block and `fs.Sub` succeed. -/
theorem generate_calls (w : World) (gosod : Extractor) (o : BuildAssetsOptions) (s : State) :
    ∃ calls : List RenderCall,
      (GenerateBuildAssets w gosod o s).state.trace = s.trace ++ calls ∧
      calls <+: [⟨Tree.buildAssets, (GenerateBuildAssets w gosod o s).options.Dir,
                  Params.options (GenerateBuildAssets w gosod o s).options⟩,
                 ⟨Tree.updatableBuildAssets, (GenerateBuildAssets w gosod o s).options.Dir,
                  Params.options (GenerateBuildAssets w gosod o s).options⟩] ∧
      ((GenerateBuildAssets w gosod o s).err = none → calls.length = 2) ∧
      ((resolveDir w o.Dir s.fs).err = none → w.Sub Tree.buildAssets = none →
        1 ≤ calls.length) := by
  rcases hr : resolveDir w o.Dir s.fs with ⟨dir, fs, err⟩
  cases err with
  | some e =>
    exact ⟨[], by simp [GenerateBuildAssets, hr], by simp, by simp [GenerateBuildAssets, hr],
      by simp⟩
  | none =>
    simp only [GenerateBuildAssets, hr]
    generalize applyDefaults w _ = o1
    cases hsub : w.Sub Tree.buildAssets with
    | some e => exact ⟨[], by simp, by simp, by simp, by simp⟩
    | none =>
      generalize hS : (if o1.Silent = true then (_ : State) else _) = S
      have hSt : S.trace = s.trace := by
        rw [← hS]
        split_ifs <;> rfl
      simp only [extract]
      rcases hg : gosod Tree.buildAssets o1.Dir (Params.options o1) S.fs with ⟨fs1, e1⟩
      cases e1 with
      | some e =>
        exact ⟨[⟨Tree.buildAssets, o1.Dir, Params.options o1⟩], by simp [hSt],
          by simp [List.prefix_cons_inj], by simp, by simp⟩
      | none =>
        simp only
        cases hsub2 : w.Sub Tree.updatableBuildAssets with
        | some e =>
          exact ⟨[⟨Tree.buildAssets, o1.Dir, Params.options o1⟩], by simp [hSt],
            by simp [List.prefix_cons_inj], by simp, by simp⟩
        | none =>
          exact ⟨[⟨Tree.buildAssets, o1.Dir, Params.options o1⟩,
              ⟨Tree.updatableBuildAssets, o1.Dir, Params.options o1⟩], by simp [hSt],
            by simp, by simp, by simp⟩

/-! ## `UpdateBuildAssets`: lemmas -/

theorem update_dir_error (w : World) (gosod : Extractor) (o : UpdateBuildAssetsOptions)
    (s : State) (e : GoError) (hc : o.Config ≠ "")
    (h : (resolveDir w o.Dir s.fs).err = some e) :
    (UpdateBuildAssets w gosod o s).err = some e ∧
    (UpdateBuildAssets w gosod o s).state.trace = s.trace := by
  rcases hr : resolveDir w o.Dir s.fs with ⟨dir, fs, err⟩
  rw [hr] at h
  simp only at h
  subst h
  simp [UpdateBuildAssets, hc, hr]

/-- The extractor calls of `UpdateBuildAssets`: none, or one call on the
evolving tree into the absolute directory with a decoded `Config`. -/
theorem update_calls (w : World) (gosod : Extractor) (o : UpdateBuildAssetsOptions)
    (s : State) :
    ∃ calls : List RenderCall,
      (UpdateBuildAssets w gosod o s).state.trace = s.trace ++ calls ∧
      (calls = [] ∨ ∃ c : Config,
        calls = [⟨Tree.updatableBuildAssets, (w.Abs o.Dir).1, Params.config c⟩]) := by
  by_cases hc : o.Config = ""
  · exact ⟨[], by simp [UpdateBuildAssets, hc], Or.inl rfl⟩
  · have hd := resolveDir_dir w o.Dir s.fs
    rcases hr : resolveDir w o.Dir s.fs with ⟨dir, fs, err⟩
    rw [hr] at hd
    simp only at hd
    subst hd
    cases err with
    | some e => exact ⟨[], by simp [UpdateBuildAssets, hc, hr], Or.inl rfl⟩
    | none =>
      simp only [UpdateBuildAssets, hc, hr, if_false]
      cases hsub : w.Sub Tree.updatableBuildAssets with
      | some e => exact ⟨[], by simp, Or.inl rfl⟩
      | none =>
        simp only
        by_cases hst : osIsNotExist (osStat w fs (w.Join (w.Abs o.Dir).1 o.Config)) = true
        · rw [if_pos hst]
          exact ⟨[], by simp, Or.inl rfl⟩
        · rw [if_neg hst]
          cases hrd : osReadFile w fs (w.Join (w.Abs o.Dir).1 o.Config) with
          | error e => exact ⟨[], by simp, Or.inl rfl⟩
          | ok config =>
            simp only
            cases hy : yamlUnmarshal w config with
            | error e => exact ⟨[], by simp, Or.inl rfl⟩
            | ok configData =>
              simp only [extract]
              rcases hg : gosod Tree.updatableBuildAssets (w.Abs o.Dir).1
                (Params.config configData) fs with ⟨fs1, e1⟩
              refine ⟨[⟨Tree.updatableBuildAssets, (w.Abs o.Dir).1, Params.config configData⟩],
                ?_, Or.inr ⟨configData, rfl⟩⟩
              cases e1 with
              | some e => simp
              | none =>
                simp only
                split_ifs <;> simp [println_trace]

/-- The outcome of `UpdateBuildAssets` when the directory block and `fs.Sub`
succeed and `os.Stat` reports the config file missing. -/
theorem update_config_missing (w : World) (gosod : Extractor) (o : UpdateBuildAssetsOptions)
    (s : State) (hc : o.Config ≠ "") (hdir : (resolveDir w o.Dir s.fs).err = none)
    (hsub : w.Sub Tree.updatableBuildAssets = none)
    (hst : osIsNotExist (osStat w (resolveDir w o.Dir s.fs).fs
      (w.Join (w.Abs o.Dir).1 o.Config)) = true) :
    (UpdateBuildAssets w gosod o s).err =
      some (fmtErrorf ("config file " ++ w.Join (w.Abs o.Dir).1 o.Config ++ " does not exist")) ∧
    (UpdateBuildAssets w gosod o s).state.trace = s.trace ∧
    (UpdateBuildAssets w gosod o s).state.fs = (resolveDir w o.Dir s.fs).fs := by
  have hd := resolveDir_dir w o.Dir s.fs
  rcases hr : resolveDir w o.Dir s.fs with ⟨dir, fs, err⟩
  rw [hr] at hd hdir hst
  simp only at hd hdir hst
  subst hd hdir
  simp [UpdateBuildAssets, hc, hr, hsub, hst]

theorem osStat_missing (w : World) (fs : FileSys) (p : String)
    (hf : w.statFault p = none) (hm : fs p = none) :
    osIsNotExist (osStat w fs p) = true := by
  simp [osStat, hf, hm, osIsNotExist]

theorem osMkdirAll_ok (w : World) (fs : FileSys) (p : String)
    (h : (osMkdirAll w fs p).2 = none) :
    (osMkdirAll w fs p).1 = (fun q => if q ∈ p :: w.ancestors p then some Node.dir else fs q) ∧
    ∀ q ∈ p :: w.ancestors p, isFile (fs q) = false := by
  unfold osMkdirAll at h ⊢
  cases hf : w.mkdirFault p with
  | some e => simp [hf] at h
  | none =>
    simp only [hf] at h ⊢
    by_cases hany : ((p :: w.ancestors p).any fun q => isFile (fs q)) = true
    · rw [if_pos hany] at h
      simp at h
    · rw [if_neg hany]
      refine ⟨rfl, ?_⟩
      intro q hq
      cases hq' : isFile (fs q) with
      | false => rfl
      | true => exact absurd (List.any_eq_true.mpr ⟨q, hq, hq'⟩) hany

/-- A successful `os.MkdirAll` changes no path that named something before. -/
theorem osMkdirAll_keeps (w : World) (fs : FileSys) (p : String)
    (h : (osMkdirAll w fs p).2 = none) (q : String) (hq : fs q ≠ none) :
    (osMkdirAll w fs p).1 q = fs q := by
  obtain ⟨h1, h2⟩ := osMkdirAll_ok w fs p h
  rw [h1]
  simp only
  split_ifs with hmem
  · have hf := h2 q hmem
    cases hn : fs q with
    | none => exact absurd hn hq
    | some n =>
      cases n with
      | dir => rfl
      | file c => simp [hn, isFile] at hf
  · rfl

/-! ## Bound parameters: lemmas -/

theorem generate_ok_dir (w : World) (gosod : Extractor) (o : BuildAssetsOptions) (s : State)
    (h : (GenerateBuildAssets w gosod o s).err = none) :
    (resolveDir w o.Dir s.fs).err = none := by
  cases hr : (resolveDir w o.Dir s.fs).err with
  | none => rfl
  | some e =>
    rw [(generate_dir_error w gosod o s e hr).1] at h
    simp at h

/-- Past the directory block, every extractor call of `GenerateBuildAssets` is
made into the absolute directory with the defaulted options, which are also the
options left behind; the first call is made whenever `fs.Sub` succeeds. -/
theorem generate_bound (w : World) (gosod : Extractor) (o : BuildAssetsOptions) (s : State)
    (hdir : (resolveDir w o.Dir s.fs).err = none) :
    ∃ calls : List RenderCall,
      (GenerateBuildAssets w gosod o s).options =
        applyDefaults w { o with Dir := (w.Abs o.Dir).1 } ∧
      (GenerateBuildAssets w gosod o s).state.trace = s.trace ++ calls ∧
      (∀ c ∈ calls, c.dir = (w.Abs o.Dir).1 ∧
        c.params = Params.options (applyDefaults w { o with Dir := (w.Abs o.Dir).1 })) ∧
      (w.Sub Tree.buildAssets = none → calls ≠ []) := by
  obtain ⟨calls, h1, h2, _, h4⟩ := generate_calls w gosod o s
  have ho := generate_options w gosod o s hdir
  rw [ho] at h2
  rw [applyDefaults_Dir] at h2
  refine ⟨calls, ho, h1, ?_, ?_⟩
  · intro c hc
    have hmem := h2.subset hc
    simp only [List.mem_cons, List.mem_singleton, List.not_mem_nil, or_false] at hmem
    rcases hmem with h | h <;> subst h <;> exact ⟨rfl, rfl⟩
  · intro hsub hnil
    have := h4 hdir hsub
    rw [hnil] at this
    simp at this

theorem applyDefaults_Binary (w : World) (o : BuildAssetsOptions) (h : o.Binary = "") :
    (applyDefaults w o).Binary =
      if w.GOOS = "windows" then normaliseName w.toLower o.Name ++ ".exe"
      else normaliseName w.toLower o.Name := by
  unfold applyDefaults
  simp only
  split_ifs <;> simp_all

theorem applyDefaults_Identifier (w : World) (o : BuildAssetsOptions) :
    (applyDefaults w o).ProductIdentifier =
      if o.ProductIdentifier = "" then "com.wails." ++ normaliseName w.toLower o.Name
      else o.ProductIdentifier := by
  unfold applyDefaults
  simp only
  split_ifs <;> simp_all

theorem applyDefaults_Comments (w : World) (o : BuildAssetsOptions) :
    (applyDefaults w o).ProductComments =
      if o.ProductComments = "" then "(c) " ++ formatInt w.year ++ " " ++ o.ProductCompany
      else o.ProductComments := by
  unfold applyDefaults
  simp only
  split_ifs <;> simp_all

theorem applyDefaults_static (w : World) (o : BuildAssetsOptions) :
    (applyDefaults w o).ProductName = o.ProductName ∧
    (applyDefaults w o).ProductDescription = o.ProductDescription ∧
    (applyDefaults w o).ProductVersion = o.ProductVersion ∧
    (applyDefaults w o).ProductCompany = o.ProductCompany ∧
    (applyDefaults w o).ProductCopyright = o.ProductCopyright ∧
    (applyDefaults w o).Name = o.Name ∧
    (applyDefaults w o).Silent = o.Silent := by
  unfold applyDefaults
  simp only
  split_ifs <;> simp

theorem append_ne_empty (a b : String) (h : a ≠ "") : a ++ b ≠ "" := by
  intro hab
  have h1 := congrArg String.data hab
  simp only [String.data_append] at h1
  have h2 : a.data = [] := (List.append_eq_nil.mp h1).1
  exact h (String.ext h2)

/-! ## Which trees are rendered -/

/-- C1: with the extractor an arbitrary operation whose calls are recorded in
the trace, every run of `UpdateBuildAssets`, failed or not, adds at most one
call to the trace and that call is on the evolving tree `updatable_build_assets`,
never on the foundation tree `build_assets`; every run of `GenerateBuildAssets`
that returns no error adds exactly two calls, the foundation tree first and the
evolving tree second, both into the directory `filepath.Abs` returned and both
with the same resolved options. -/
theorem update_renders_evolving_generate_renders_both (w : World) (gosod : Extractor) :
    (∀ (o : UpdateBuildAssetsOptions) (s : State), ∃ calls : List RenderCall,
      (UpdateBuildAssets w gosod o s).state.trace = s.trace ++ calls ∧
      calls.length ≤ 1 ∧
      ∀ c ∈ calls, c.tree = Tree.updatableBuildAssets ∧ c.tree ≠ Tree.buildAssets) ∧
    (∀ (o : BuildAssetsOptions) (s : State),
      (GenerateBuildAssets w gosod o s).err = none →
      (GenerateBuildAssets w gosod o s).state.trace = s.trace ++
        [⟨Tree.buildAssets, (w.Abs o.Dir).1,
            Params.options (applyDefaults w { o with Dir := (w.Abs o.Dir).1 })⟩,
         ⟨Tree.updatableBuildAssets, (w.Abs o.Dir).1,
            Params.options (applyDefaults w { o with Dir := (w.Abs o.Dir).1 })⟩] ∧
      (GenerateBuildAssets w gosod o s).options =
        applyDefaults w { o with Dir := (w.Abs o.Dir).1 }) := by
  constructor
  · intro o s
    obtain ⟨calls, h1, h2⟩ := update_calls w gosod o s
    refine ⟨calls, h1, ?_, ?_⟩
    · rcases h2 with h | ⟨c, h⟩ <;> simp [h]
    · intro c hc
      rcases h2 with h | ⟨c0, h⟩
      · simp [h] at hc
      · rw [h] at hc
        simp only [List.mem_singleton] at hc
        subst hc
        exact ⟨rfl, fun h => Tree.noConfusion h⟩
  · intro o s herr
    obtain ⟨calls, h1, h2, h3, _⟩ := generate_calls w gosod o s
    have ho := generate_options w gosod o s (generate_ok_dir w gosod o s herr)
    rw [ho, applyDefaults_Dir] at h2
    have hcalls := h2.eq_of_length (by rw [h3 herr]; rfl)
    rw [hcalls] at h1
    exact ⟨h1, ho⟩

/-- Witness of C1: a successful generation in `/work/build`. -/
theorem update_renders_evolving_generate_renders_both_witness :
    (GenerateBuildAssets posix (specExtract posix sampleTemplates) sampleOptions
      workState).err = none ∧
    (GenerateBuildAssets posix (specExtract posix sampleTemplates) sampleOptions
      workState).state.trace = workState.trace ++
        [⟨Tree.buildAssets, (posix.Abs sampleOptions.Dir).1,
            Params.options (applyDefaults posix
              { sampleOptions with Dir := (posix.Abs sampleOptions.Dir).1 })⟩,
         ⟨Tree.updatableBuildAssets, (posix.Abs sampleOptions.Dir).1,
            Params.options (applyDefaults posix
              { sampleOptions with Dir := (posix.Abs sampleOptions.Dir).1 })⟩] :=
  ⟨by decide,
    ((update_renders_evolving_generate_renders_both posix
      (specExtract posix sampleTemplates)).2 sampleOptions workState (by decide)).1⟩

/-! ## The missing config file -/

/-- C3 as stated fails: in a filesystem where neither `/work/build` nor the
config file in it exists, `UpdateBuildAssets` returns the missing-config error
and renders nothing, but it has created `/work/build` first, so the state after
the call is not the state before it. -/
theorem update_creates_directory_before_config_check :
    workFS "/work/build/appdata.yaml" = none ∧
    workFS "/work/build" = none ∧
    (UpdateBuildAssets posix (specExtract posix sampleTemplates)
      ⟨"build", "appdata.yaml", true⟩ workState).err =
        some (fmtErrorf "config file /work/build/appdata.yaml does not exist") ∧
    (UpdateBuildAssets posix (specExtract posix sampleTemplates)
      ⟨"build", "appdata.yaml", true⟩ workState).state.fs "/work/build" = some Node.dir ∧
    (UpdateBuildAssets posix (specExtract posix sampleTemplates)
      ⟨"build", "appdata.yaml", true⟩ workState).state.fs ≠ workState.fs := by
  refine ⟨by decide, by decide, by decide, by decide, ?_⟩
  intro h
  have h1 := congrFun h "/work/build"
  revert h1
  decide

/-- C3, amended: let the config file name be non-empty, let `filepath.Abs` and
`fs.Sub` succeed, let the config path `filepath.Join(abs, config)` name nothing
and `os.Stat` not fail on it for another reason, and, in case `os.Stat` reports
the directory missing, let `os.MkdirAll` succeed and the config path be neither
the directory nor one of its ancestors.  Then `UpdateBuildAssets` returns the
error "config file <path> does not exist" and renders no template; the
filesystem is unchanged when `os.Stat` does not report the directory missing,
and otherwise it is the state before with the directory and its ancestors as
directories; in both cases every path that named something before is as it
was. -/
theorem update_missing_config (w : World) (gosod : Extractor)
    (o : UpdateBuildAssetsOptions) (s : State)
    (hc : o.Config ≠ "")
    (habs : (w.Abs o.Dir).2 = none)
    (hsub : w.Sub Tree.updatableBuildAssets = none)
    (hfault : w.statFault (w.Join (w.Abs o.Dir).1 o.Config) = none)
    (hmissing : s.fs (w.Join (w.Abs o.Dir).1 o.Config) = none)
    (hmk : osIsNotExist (osStat w s.fs (w.Abs o.Dir).1) = true →
      (osMkdirAll w s.fs (w.Abs o.Dir).1).2 = none ∧
      w.Join (w.Abs o.Dir).1 o.Config ∉ (w.Abs o.Dir).1 :: w.ancestors (w.Abs o.Dir).1) :
    (UpdateBuildAssets w gosod o s).err =
      some (fmtErrorf ("config file " ++ w.Join (w.Abs o.Dir).1 o.Config ++ " does not exist")) ∧
    (UpdateBuildAssets w gosod o s).state.trace = s.trace ∧
    (osIsNotExist (osStat w s.fs (w.Abs o.Dir).1) = false →
      (UpdateBuildAssets w gosod o s).state.fs = s.fs) ∧
    (osIsNotExist (osStat w s.fs (w.Abs o.Dir).1) = true →
      (UpdateBuildAssets w gosod o s).state.fs =
        fun q => if q ∈ (w.Abs o.Dir).1 :: w.ancestors (w.Abs o.Dir).1 then some Node.dir
          else s.fs q) ∧
    (∀ q, s.fs q ≠ none → (UpdateBuildAssets w gosod o s).state.fs q = s.fs q) := by
  have hr := resolveDir_abs_ok w o.Dir s.fs habs
  by_cases hne : osIsNotExist (osStat w s.fs (w.Abs o.Dir).1) = true
  · obtain ⟨hmkok, hnotin⟩ := hmk hne
    rw [if_pos hne] at hr
    obtain ⟨hfs, _⟩ := osMkdirAll_ok w s.fs _ hmkok
    have hst : osIsNotExist (osStat w (resolveDir w o.Dir s.fs).fs
        (w.Join (w.Abs o.Dir).1 o.Config)) = true := by
      apply osStat_missing w _ _ hfault
      rw [hr]
      simp only
      rw [hfs]
      simp only
      rw [if_neg hnotin]
      exact hmissing
    obtain ⟨h1, h2, h3⟩ := update_config_missing w gosod o s hc (by rw [hr]; exact hmkok) hsub hst
    rw [hr] at h3
    simp only at h3
    refine ⟨h1, h2, fun h => by rw [hne] at h; simp at h, fun _ => by rw [h3, hfs], ?_⟩
    intro q hq
    rw [h3]
    exact osMkdirAll_keeps w s.fs _ hmkok q hq
  · rw [if_neg hne] at hr
    have hst : osIsNotExist (osStat w (resolveDir w o.Dir s.fs).fs
        (w.Join (w.Abs o.Dir).1 o.Config)) = true := by
      apply osStat_missing w _ _ hfault
      rw [hr]
      exact hmissing
    obtain ⟨h1, h2, h3⟩ := update_config_missing w gosod o s hc (by rw [hr]) hsub hst
    rw [hr] at h3
    simp only at h3
    exact ⟨h1, h2, fun _ => h3, fun h => absurd h hne, fun q _ => by rw [h3]⟩

/-- Witness of C3, amended: the update in `/work/build`, which does not exist
yet. -/
theorem update_missing_config_witness :
    (UpdateBuildAssets posix (specExtract posix sampleTemplates)
      ⟨"build", "appdata.yaml", true⟩ workState).err =
      some (fmtErrorf ("config file " ++ posix.Join (posix.Abs "build").1 "appdata.yaml" ++
        " does not exist")) ∧
    (UpdateBuildAssets posix (specExtract posix sampleTemplates)
      ⟨"build", "appdata.yaml", true⟩ workState).state.trace = workState.trace :=
  have h := update_missing_config posix (specExtract posix sampleTemplates)
    ⟨"build", "appdata.yaml", true⟩ workState (by decide) (by decide) (by decide) (by decide)
    (by decide) (fun _ => ⟨by decide, by decide⟩)
  ⟨h.1, h.2.1⟩

/-! ## The derived defaults -/

/-- C6: for every project name `n`, when `GenerateBuildAssets` is called with an
empty `Binary` and gets past the directory block, the options left behind, which
are the template data of every extractor call it makes (and it makes one as soon
as `fs.Sub` succeeds), have `Binary = normaliseName n` when `runtime.GOOS` is
not `"windows"` and `Binary = normaliseName n ++ ".exe"` when it is; for
`n = "My App"`, under a case table that is `unicode.ToLower` on ASCII, these are
`"my-app"` and `"my-app.exe"`. -/
theorem binary_default (w : World) (gosod : Extractor) (n : String)
    (o : BuildAssetsOptions) (s : State) (hn : o.Name = n) (hb : o.Binary = "")
    (hdir : (resolveDir w o.Dir s.fs).err = none) :
    ∃ (bound : BuildAssetsOptions) (calls : List RenderCall),
      (GenerateBuildAssets w gosod o s).options = bound ∧
      (GenerateBuildAssets w gosod o s).state.trace = s.trace ++ calls ∧
      (∀ c ∈ calls, c.params = Params.options bound) ∧
      (w.Sub Tree.buildAssets = none → calls ≠ []) ∧
      (w.GOOS ≠ "windows" → bound.Binary = normaliseName w.toLower n) ∧
      (w.GOOS = "windows" → bound.Binary = normaliseName w.toLower n ++ ".exe") ∧
      (LowerAscii w.toLower → n = "My App" →
        (w.GOOS ≠ "windows" → bound.Binary = "my-app") ∧
        (w.GOOS = "windows" → bound.Binary = "my-app.exe")) := by
  obtain ⟨calls, h1, h2, h3, h4⟩ := generate_bound w gosod o s hdir
  subst hn
  have hB := applyDefaults_Binary w { o with Dir := (w.Abs o.Dir).1 } hb
  simp only at hB
  refine ⟨_, calls, h1, h2, fun c hc => (h3 c hc).2, h4, ?_, ?_, ?_⟩
  · intro hg
    rw [hB, if_neg hg]
  · intro hg
    rw [hB, if_pos hg]
  · intro ha hmy
    have hnn := normaliseName_my_app w.toLower ha
    constructor
    · intro hg
      rw [hB, if_neg hg, hmy, hnn]
    · intro hg
      rw [hB, if_pos hg, hmy, hnn]
      decide

/-- Witness of C6: the project `"My App"` on a Windows build. -/
theorem binary_default_witness :
    sampleOptions.Name = "My App" ∧ sampleOptions.Binary = "" ∧
    (resolveDir posixWindows sampleOptions.Dir workState.fs).err = none ∧
    (GenerateBuildAssets posixWindows (specExtract posixWindows sampleTemplates) sampleOptions
      workState).options.Binary = "my-app.exe" := by
  refine ⟨rfl, rfl, by decide, ?_⟩
  obtain ⟨bound, calls, h1, _, _, _, _, _, h7⟩ :=
    binary_default posixWindows (specExtract posixWindows sampleTemplates) "My App"
      sampleOptions workState rfl rfl (by decide)
  rw [h1]
  exact (h7 lowerAscii_asciiLower rfl).2 rfl

/-- C7: for every project name `n`, when `GenerateBuildAssets` gets past the
directory block, the options left behind, which are the template data of every
extractor call it makes, have `ProductIdentifier = "com.wails." ++
normaliseName n` when the supplied identifier is empty, which is
`"com.wails.my-app"` for `n = "My App"` under a case table that is
`unicode.ToLower` on ASCII, and have the supplied identifier unchanged when it
is not empty. -/
theorem identifier_default (w : World) (gosod : Extractor) (n : String)
    (o : BuildAssetsOptions) (s : State) (hn : o.Name = n)
    (hdir : (resolveDir w o.Dir s.fs).err = none) :
    ∃ (bound : BuildAssetsOptions) (calls : List RenderCall),
      (GenerateBuildAssets w gosod o s).options = bound ∧
      (GenerateBuildAssets w gosod o s).state.trace = s.trace ++ calls ∧
      (∀ c ∈ calls, c.params = Params.options bound) ∧
      (w.Sub Tree.buildAssets = none → calls ≠ []) ∧
      (o.ProductIdentifier = "" →
        bound.ProductIdentifier = "com.wails." ++ normaliseName w.toLower n) ∧
      (o.ProductIdentifier = "" → LowerAscii w.toLower → n = "My App" →
        bound.ProductIdentifier = "com.wails.my-app") ∧
      (o.ProductIdentifier ≠ "" → bound.ProductIdentifier = o.ProductIdentifier) := by
  obtain ⟨calls, h1, h2, h3, h4⟩ := generate_bound w gosod o s hdir
  subst hn
  have hI := applyDefaults_Identifier w { o with Dir := (w.Abs o.Dir).1 }
  simp only at hI
  refine ⟨_, calls, h1, h2, fun c hc => (h3 c hc).2, h4, ?_, ?_, ?_⟩
  · intro he
    rw [hI, if_pos he]
  · intro he ha hmy
    rw [hI, if_pos he, hmy, normaliseName_my_app w.toLower ha]
    decide
  · intro he
    rw [hI, if_neg he]

/-- Witness of C7: the project `"My App"` without an identifier. -/
theorem identifier_default_witness :
    sampleOptions.Name = "My App" ∧ sampleOptions.ProductIdentifier = "" ∧
    (resolveDir posix sampleOptions.Dir workState.fs).err = none ∧
    (GenerateBuildAssets posix (specExtract posix sampleTemplates) sampleOptions
      workState).options.ProductIdentifier = "com.wails.my-app" := by
  refine ⟨rfl, rfl, by decide, ?_⟩
  obtain ⟨bound, calls, h1, _, _, _, _, h6, _⟩ :=
    identifier_default posix (specExtract posix sampleTemplates) "My App"
      sampleOptions workState rfl (by decide)
  rw [h1]
  exact h6 rfl lowerAscii_asciiLower rfl

/-- C8: for every company name `C`, empty or not, and every year `Y` the clock
gives, when `GenerateBuildAssets` is called with an empty `ProductComments` and
gets past the directory block, the options left behind, which are the template
data of every extractor call it makes, have as comment `"(c) "`, the `%d`
rendering of `Y`, one space, and `C`; the rendering of a year that is not
negative is a digit string that denotes `Y`; for `C = "Acme"` and `Y = 2024` the
comment is `"(c) 2024 Acme"`. -/
theorem comment_default (w : World) (gosod : Extractor) (C : String)
    (o : BuildAssetsOptions) (s : State) (hC : o.ProductCompany = C)
    (hcm : o.ProductComments = "") (hdir : (resolveDir w o.Dir s.fs).err = none) :
    ∃ (bound : BuildAssetsOptions) (calls : List RenderCall),
      (GenerateBuildAssets w gosod o s).options = bound ∧
      (GenerateBuildAssets w gosod o s).state.trace = s.trace ++ calls ∧
      (∀ c ∈ calls, c.params = Params.options bound) ∧
      (w.Sub Tree.buildAssets = none → calls ≠ []) ∧
      bound.ProductComments = "(c) " ++ formatInt w.year ++ " " ++ C ∧
      (0 ≤ w.year → decimalValue (formatInt w.year).data = w.year.toNat) ∧
      (w.year = 2024 → C = "Acme" → bound.ProductComments = "(c) 2024 Acme") := by
  obtain ⟨calls, h1, h2, h3, h4⟩ := generate_bound w gosod o s hdir
  subst hC
  have hK := applyDefaults_Comments w { o with Dir := (w.Abs o.Dir).1 }
  simp only at hK
  rw [if_pos hcm] at hK
  refine ⟨_, calls, h1, h2, fun c hc => (h3 c hc).2, h4, hK, decimalValue_formatInt w.year, ?_⟩
  intro hy hA
  rw [hK, hy, hA]
  decide

/-- Witness of C8: the company `"Acme"` in 2024. -/
theorem comment_default_witness :
    sampleOptions.ProductCompany = "Acme" ∧ sampleOptions.ProductComments = "" ∧
    (resolveDir posix sampleOptions.Dir workState.fs).err = none ∧
    (GenerateBuildAssets posix (specExtract posix sampleTemplates) sampleOptions
      workState).options.ProductComments = "(c) 2024 Acme" := by
  refine ⟨rfl, rfl, by decide, ?_⟩
  obtain ⟨bound, calls, h1, _, _, _, _, _, h7⟩ :=
    comment_default posix (specExtract posix sampleTemplates) "Acme"
      sampleOptions workState rfl rfl (by decide)
  rw [h1]
  exact h7 rfl rfl

/-! ## The static defaults -/

/-- C9 as stated fails: called with an empty product name, description,
version and copyright, `GenerateBuildAssets` gets past the directory block and
hands the extractor options in which the four are still empty, not the default
literals. -/
theorem static_defaults_not_applied :
    sampleOptions.ProductName = "" ∧
    (resolveDir posix sampleOptions.Dir workState.fs).err = none ∧
    (GenerateBuildAssets posix (specExtract posix sampleTemplates) sampleOptions
      workState).options.ProductName = "" ∧
    (GenerateBuildAssets posix (specExtract posix sampleTemplates) sampleOptions
      workState).options.ProductName ≠ "My Product" ∧
    (GenerateBuildAssets posix (specExtract posix sampleTemplates) sampleOptions
      workState).options.ProductVersion ≠ "0.1.0" ∧
    (GenerateBuildAssets posix (specExtract posix sampleTemplates) sampleOptions
      workState).state.trace.map RenderCall.params =
      [Params.options (GenerateBuildAssets posix (specExtract posix sampleTemplates)
        sampleOptions workState).options,
       Params.options (GenerateBuildAssets posix (specExtract posix sampleTemplates)
        sampleOptions workState).options] := by
  refine ⟨by decide, by decide, by decide, by decide, by decide, by decide⟩

/-- C9, amended: for every input to `GenerateBuildAssets` that gets past the
directory block, each of product name, description, version, company and
copyright in the options left behind, which are the template data of every
extractor call, equals the supplied value, empty or not; the static default
literals are the `default` struct tags of `BuildAssetsOptions`, and when the
supplied five are those of the tags the bound five are the literals
`"My Product"`, `"My Product Description"`, `"0.1.0"`, `"My Company"`,
`"© now, My Company"`; the comment and the identifier are never empty after
resolution. -/
theorem static_fields_pass_through (w : World) (gosod : Extractor)
    (o : BuildAssetsOptions) (s : State) (hdir : (resolveDir w o.Dir s.fs).err = none) :
    ∃ (bound : BuildAssetsOptions) (calls : List RenderCall),
      (GenerateBuildAssets w gosod o s).options = bound ∧
      (GenerateBuildAssets w gosod o s).state.trace = s.trace ++ calls ∧
      (∀ c ∈ calls, c.params = Params.options bound) ∧
      (w.Sub Tree.buildAssets = none → calls ≠ []) ∧
      (bound.ProductName = o.ProductName ∧
       bound.ProductDescription = o.ProductDescription ∧
       bound.ProductVersion = o.ProductVersion ∧
       bound.ProductCompany = o.ProductCompany ∧
       bound.ProductCopyright = o.ProductCopyright) ∧
      (o.ProductName = BuildAssetsOptions.tagDefaults.ProductName →
       o.ProductDescription = BuildAssetsOptions.tagDefaults.ProductDescription →
       o.ProductVersion = BuildAssetsOptions.tagDefaults.ProductVersion →
       o.ProductCompany = BuildAssetsOptions.tagDefaults.ProductCompany →
       o.ProductCopyright = BuildAssetsOptions.tagDefaults.ProductCopyright →
        bound.ProductName = "My Product" ∧
        bound.ProductDescription = "My Product Description" ∧
        bound.ProductVersion = "0.1.0" ∧
        bound.ProductCompany = "My Company" ∧
        bound.ProductCopyright = "© now, My Company") ∧
      bound.ProductComments ≠ "" ∧
      bound.ProductIdentifier ≠ "" := by
  obtain ⟨calls, h1, h2, h3, h4⟩ := generate_bound w gosod o s hdir
  obtain ⟨s1, s2, s3, s4, s5, _, _⟩ := applyDefaults_static w { o with Dir := (w.Abs o.Dir).1 }
  have hK := applyDefaults_Comments w { o with Dir := (w.Abs o.Dir).1 }
  have hI := applyDefaults_Identifier w { o with Dir := (w.Abs o.Dir).1 }
  simp only at s1 s2 s3 s4 s5 hK hI
  refine ⟨_, calls, h1, h2, fun c hc => (h3 c hc).2, h4, ⟨s1, s2, s3, s4, s5⟩, ?_, ?_, ?_⟩
  · intro e1 e2 e3 e4 e5
    rw [s1, s2, s3, s4, s5, e1, e2, e3, e4, e5]
    exact ⟨rfl, rfl, rfl, rfl, rfl⟩
  · rw [hK]
    split_ifs with h
    · rw [String.append_assoc, String.append_assoc]
      exact append_ne_empty _ _ (by decide)
    · exact h
  · rw [hI]
    split_ifs with h
    · exact append_ne_empty _ _ (by decide)
    · exact h

/-- Witness of C9, amended: the sample options, whose product name is empty. -/
theorem static_fields_pass_through_witness :
    (resolveDir posix sampleOptions.Dir workState.fs).err = none ∧
    (GenerateBuildAssets posix (specExtract posix sampleTemplates) sampleOptions
      workState).options.ProductCompany = "Acme" ∧
    (GenerateBuildAssets posix (specExtract posix sampleTemplates) sampleOptions
      workState).options.ProductComments ≠ "" := by
  obtain ⟨bound, calls, h1, _, _, _, h5, _, h7, _⟩ :=
    static_fields_pass_through posix (specExtract posix sampleTemplates)
      sampleOptions workState (by decide)
  refine ⟨by decide, ?_, ?_⟩
  · rw [h1, h5.2.2.2.1]
    rfl
  · rw [h1]
    exact h7

/-! ## The destination directory -/

/-- C10 as stated fails: `os.Stat` is denied on `/work/locked`, which does not
exist; the error is not returned, both commands go on without creating the
directory, `GenerateBuildAssets` renders both trees and returns nil, and
`UpdateBuildAssets` returns another error. -/
theorem stat_error_not_returned :
    osStat posixDenied workFS "/work/locked" =
      some ⟨"stat /work/locked: permission denied", false⟩ ∧
    (resolveDir posixDenied "locked" workFS).err = none ∧
    (resolveDir posixDenied "locked" workFS).dir = "/work/locked" ∧
    (resolveDir posixDenied "locked" workFS).fs "/work/locked" = none ∧
    (GenerateBuildAssets posixDenied (specExtract posixDenied sampleTemplates)
      { sampleOptions with Dir := "locked" } workState).err = none ∧
    (GenerateBuildAssets posixDenied (specExtract posixDenied sampleTemplates)
      { sampleOptions with Dir := "locked" } workState).state.trace.map RenderCall.tree =
        [Tree.buildAssets, Tree.updatableBuildAssets] ∧
    (UpdateBuildAssets posixDenied (specExtract posixDenied sampleTemplates)
      ⟨"locked", "appdata.yaml", true⟩ workState).err =
        some (fmtErrorf "config file /work/locked/appdata.yaml does not exist") := by
  refine ⟨by decide, by decide, by decide, by decide, by decide, by decide, by decide⟩

/-- C10, amended: over the filesystem model in which `filepath.Abs`, `os.Stat`
and `os.MkdirAll` each succeed or fail with an error, for every directory
argument and every filesystem state: whenever a command goes on past the
directory block, the destination directory is the path `filepath.Abs` returned
without error (absolute when `filepath.Abs` returns absolute paths), it exists
unchanged when `os.Stat` succeeded, and it was created as a directory together
with all its ancestors, nothing that existed being changed, when `os.Stat`
reported it missing; every error of `filepath.Abs` and of `os.MkdirAll` is
returned unchanged by `GenerateBuildAssets` and by `UpdateBuildAssets` (called
with a config name) and no rendering takes place; the directory block raises no
other error.  An error of `os.Stat` other than not-exist is not returned: the
command goes on with the filesystem as it was. -/
theorem directory_block_sound (w : World) (gosod : Extractor) (dir : String) (fs : FileSys) :
    ((resolveDir w dir fs).err = none →
      (w.Abs dir).2 = none ∧
      (resolveDir w dir fs).dir = (w.Abs dir).1 ∧
      ((∀ d, (w.Abs d).2 = none → w.IsAbs (w.Abs d).1 = true) →
        w.IsAbs (resolveDir w dir fs).dir = true) ∧
      (osStat w fs (w.Abs dir).1 = none →
        (resolveDir w dir fs).fs = fs ∧ fs (w.Abs dir).1 ≠ none) ∧
      (osIsNotExist (osStat w fs (w.Abs dir).1) = true →
        (∀ q ∈ (w.Abs dir).1 :: w.ancestors (w.Abs dir).1,
          (resolveDir w dir fs).fs q = some Node.dir) ∧
        (∀ q, fs q ≠ none → (resolveDir w dir fs).fs q = fs q)) ∧
      (osStat w fs (w.Abs dir).1 ≠ none → osIsNotExist (osStat w fs (w.Abs dir).1) = false →
        (resolveDir w dir fs).fs = fs)) ∧
    (∀ e, (w.Abs dir).2 = some e → (resolveDir w dir fs).err = some e) ∧
    (∀ e, (w.Abs dir).2 = none → osIsNotExist (osStat w fs (w.Abs dir).1) = true →
      (osMkdirAll w fs (w.Abs dir).1).2 = some e → (resolveDir w dir fs).err = some e) ∧
    (∀ e, (resolveDir w dir fs).err = some e →
      (w.Abs dir).2 = some e ∨
      ((w.Abs dir).2 = none ∧ osIsNotExist (osStat w fs (w.Abs dir).1) = true ∧
        (osMkdirAll w fs (w.Abs dir).1).2 = some e)) ∧
    (∀ (e : GoError) (o : BuildAssetsOptions) (s : State), o.Dir = dir → s.fs = fs →
      (resolveDir w dir fs).err = some e →
      (GenerateBuildAssets w gosod o s).err = some e ∧
      (GenerateBuildAssets w gosod o s).state.trace = s.trace) ∧
    (∀ (e : GoError) (o : UpdateBuildAssetsOptions) (s : State), o.Config ≠ "" →
      o.Dir = dir → s.fs = fs → (resolveDir w dir fs).err = some e →
      (UpdateBuildAssets w gosod o s).err = some e ∧
      (UpdateBuildAssets w gosod o s).state.trace = s.trace) := by
  refine ⟨?_, ?_, ?_, ?_, ?_, ?_⟩
  · intro herr
    have habs := resolveDir_err_none w dir fs herr
    have hr := resolveDir_abs_ok w dir fs habs
    refine ⟨habs, resolveDir_dir w dir fs, ?_, ?_, ?_, ?_⟩
    · intro hcontract
      rw [resolveDir_dir]
      exact hcontract dir habs
    · intro hst
      have hne : ¬ osIsNotExist (osStat w fs (w.Abs dir).1) = true := by
        rw [hst]; simp [osIsNotExist]
      rw [if_neg hne] at hr
      refine ⟨by rw [hr], ?_⟩
      intro hnone
      unfold osStat at hst
      cases hf : w.statFault (w.Abs dir).1 with
      | some e => simp [hf] at hst
      | none => simp [hf, hnone] at hst
    · intro hne
      rw [if_pos hne] at hr
      rw [hr] at herr
      simp only at herr
      obtain ⟨hfs, _⟩ := osMkdirAll_ok w fs _ herr
      constructor
      · intro q hq
        rw [hr]
        simp only
        rw [hfs]
        simp only
        rw [if_pos hq]
      · intro q hq
        rw [hr]
        exact osMkdirAll_keeps w fs _ herr q hq
    · intro _ hne
      rw [if_neg (by rw [hne]; simp)] at hr
      rw [hr]
  · intro e he
    exact (resolveDir_abs_error w dir fs e he).1
  · intro e habs hne hmk
    rw [resolveDir_abs_ok w dir fs habs, if_pos hne]
    exact hmk
  · intro e herr
    cases habs : (w.Abs dir).2 with
    | some e0 =>
      rw [(resolveDir_abs_error w dir fs e0 habs).1] at herr
      exact Or.inl herr
    | none =>
      right
      rw [resolveDir_abs_ok w dir fs habs] at herr
      by_cases hne : osIsNotExist (osStat w fs (w.Abs dir).1) = true
      · rw [if_pos hne] at herr
        exact ⟨rfl, hne, herr⟩
      · rw [if_neg hne] at herr
        simp at herr
  · intro e o s hd hf herr
    subst hd hf
    exact generate_dir_error w gosod o s e herr
  · intro e o s hc hd hf herr
    subst hd hf
    exact update_dir_error w gosod o s e hc herr

/-- Witness of C10, amended: the directory `/work/build` is created. -/
theorem directory_block_sound_witness :
    (resolveDir posix "build" workFS).err = none ∧
    (resolveDir posix "build" workFS).dir = (posix.Abs "build").1 ∧
    posix.IsAbs (resolveDir posix "build" workFS).dir = true ∧
    (resolveDir posix "build" workFS).fs "/work/build" = some Node.dir :=
  have h := (directory_block_sound posix (specExtract posix sampleTemplates) "build"
    workFS).1 (by decide)
  ⟨by decide, h.2.1, by decide, (h.2.2.2.2.1 (by decide)).1 "/work/build" (by decide)⟩

/-! ## Extraction over the specified trees: lemmas -/

theorem writeAll_append (w : World) (dir : String) (params : Params) (a b : List Entry)
    (fs : FileSys) :
    writeAll w dir params (a ++ b) fs =
      match writeAll w dir params a fs with
      | (fs1, some err) => (fs1, some err)
      | (fs1, none) => writeAll w dir params b fs1 := by
  induction a generalizing fs with
  | nil => simp [writeAll]
  | cons e es ih =>
    simp only [List.cons_append, writeAll]
    cases e.render params with
    | error err => rfl
    | ok text =>
      simp only
      cases w.writeFault (w.Join dir e.rel) with
      | some err => rfl
      | none => exact ih _

/-- Extraction leaves every path alone that is not the target of an entry. -/
theorem writeAll_other (w : World) (dir : String) (params : Params) (es : List Entry)
    (fs : FileSys) (q : String) (h : ∀ e ∈ es, w.Join dir e.rel ≠ q) :
    (writeAll w dir params es fs).1 q = fs q := by
  induction es generalizing fs with
  | nil => rfl
  | cons e es ih =>
    have he : w.Join dir e.rel ≠ q := h e (List.mem_cons_self e es)
    have hes : ∀ e' ∈ es, w.Join dir e'.rel ≠ q :=
      fun e' he' => h e' (List.mem_cons_of_mem e he')
    simp only [writeAll]
    cases e.render params with
    | error err => rfl
    | ok text =>
      simp only
      cases w.writeFault (w.Join dir e.rel) with
      | some err => rfl
      | none =>
        simp only
        rw [ih _ hes]
        simp only [writeFile]
        rw [if_neg (fun hq => he hq.symm)]

/-- Extraction removes nothing. -/
theorem writeAll_keeps_existing (w : World) (dir : String) (params : Params)
    (es : List Entry) (fs : FileSys) (q : String) (h : fs q ≠ none) :
    (writeAll w dir params es fs).1 q ≠ none := by
  induction es generalizing fs with
  | nil => exact h
  | cons e es ih =>
    simp only [writeAll]
    cases e.render params with
    | error err => exact h
    | ok text =>
      simp only
      cases w.writeFault (w.Join dir e.rel) with
      | some err => exact h
      | none =>
        simp only
        apply ih
        simp only [writeFile]
        split_ifs
        · simp
        · exact h

/-- A successful extraction of the evolving tree leaves the snapshot of the
bound parameters in the snapshot file, provided no later entry has the same
target. -/
theorem writeAll_snapshot (w : World) (t : Templates) (dir : String) (params : Params)
    (fs : FileSys)
    (hlast : ∀ e ∈ t.evolvingAfter, w.Join dir e.rel ≠ w.Join dir t.snapshotName)
    (hok : (writeAll w dir params (t.entries Tree.updatableBuildAssets) fs).2 = none) :
    (writeAll w dir params (t.entries Tree.updatableBuildAssets) fs).1
        (w.Join dir t.snapshotName) =
      some (Node.file (t.printYaml (Config.fields params.snapshot))) := by
  simp only [Templates.entries] at hok ⊢
  rw [writeAll_append] at hok ⊢
  rcases h1 : writeAll w dir params t.evolvingBefore fs with ⟨fs1, e1⟩
  rw [h1] at hok
  cases e1 with
  | some err => simp at hok
  | none =>
    simp only at hok ⊢
    simp only [writeAll, Templates.snapshotEntry] at hok ⊢
    cases hf : w.writeFault (w.Join dir t.snapshotName) with
    | some err => simp [hf] at hok
    | none =>
      simp only
      rw [writeAll_other w dir params t.evolvingAfter _ _ hlast]
      simp [writeFile]

theorem ofFields_fields (c : Config) : Config.ofFields (Config.fields c) = c := by
  cases c
  simp [Config.ofFields, Config.fields, fieldOf, List.lookup]

theorem snapshot_applyDefaults_dir (w : World) (o : BuildAssetsOptions) (d : String) :
    Params.snapshot (Params.options (applyDefaults w { o with Dir := d })) =
      Params.snapshot (Params.options (applyDefaults w o)) := by
  unfold applyDefaults
  simp only
  split_ifs <;> simp_all [Params.snapshot]

/-- The directory the block goes on with names something when `os.Stat` does
not fail on it for a reason of its own. -/
theorem resolveDir_exists (w : World) (dir : String) (fs : FileSys)
    (herr : (resolveDir w dir fs).err = none) (hf : w.statFault (w.Abs dir).1 = none) :
    (resolveDir w dir fs).fs (w.Abs dir).1 ≠ none := by
  have habs := resolveDir_err_none w dir fs herr
  have hr := resolveDir_abs_ok w dir fs habs
  by_cases hne : osIsNotExist (osStat w fs (w.Abs dir).1) = true
  · rw [if_pos hne] at hr
    rw [hr] at herr
    simp only at herr
    obtain ⟨hfs, _⟩ := osMkdirAll_ok w fs _ herr
    rw [hr]
    simp only
    rw [hfs]
    simp
  · rw [if_neg hne] at hr
    rw [hr]
    simp only
    intro hnone
    exact hne (osStat_missing w fs _ hf hnone)

/-- A successful `GenerateBuildAssets` ran both extractions without error, the
second on what the first left. -/
theorem generate_ok_fs (w : World) (gosod : Extractor) (o : BuildAssetsOptions) (s : State)
    (h : (GenerateBuildAssets w gosod o s).err = none) :
    w.Sub Tree.updatableBuildAssets = none ∧
    ∃ fs1 : FileSys,
      gosod Tree.buildAssets (w.Abs o.Dir).1
        (Params.options (applyDefaults w { o with Dir := (w.Abs o.Dir).1 }))
        (resolveDir w o.Dir s.fs).fs = (fs1, none) ∧
      gosod Tree.updatableBuildAssets (w.Abs o.Dir).1
        (Params.options (applyDefaults w { o with Dir := (w.Abs o.Dir).1 })) fs1 =
        ((GenerateBuildAssets w gosod o s).state.fs, none) := by
  have hd := resolveDir_dir w o.Dir s.fs
  rcases hr : resolveDir w o.Dir s.fs with ⟨dir, fs, err⟩
  rw [hr] at hd
  simp only at hd
  subst hd
  cases err with
  | some e => simp [GenerateBuildAssets, hr] at h
  | none =>
    have hD := applyDefaults_Dir w { o with Dir := (w.Abs o.Dir).1 }
    simp only at hD
    simp only [GenerateBuildAssets, hr] at h ⊢
    generalize applyDefaults w _ = o1 at h hD ⊢
    cases hsub : w.Sub Tree.buildAssets with
    | some e => simp [hsub] at h
    | none =>
      simp only [hsub] at h ⊢
      generalize hS : (if o1.Silent = true then (_ : State) else _) = S at h ⊢
      have hSf : S.fs = fs := by
        rw [← hS]
        split_ifs <;> rfl
      simp only [extract] at h ⊢
      rw [hSf, hD] at h ⊢
      rcases hg : gosod Tree.buildAssets (w.Abs o.Dir).1 (Params.options o1) fs with ⟨fs1, e1⟩
      rw [hg] at h
      simp only at h
      cases e1 with
      | some e => simp at h
      | none =>
        simp only at h ⊢
        cases hsub2 : w.Sub Tree.updatableBuildAssets with
        | some e => simp [hsub2] at h
        | none =>
          simp only [hsub2] at h ⊢
          refine ⟨trivial, fs1, rfl, ?_⟩
          apply Prod.ext
          · rfl
          · exact h

/-- The outcome of `UpdateBuildAssets` when everything up to the extraction
succeeds: one extractor call with the decoded `Config`. -/
theorem update_reads (w : World) (gosod : Extractor) (o : UpdateBuildAssetsOptions)
    (s : State) (fs : FileSys) (content : String) (c : Config)
    (hc : o.Config ≠ "")
    (hr : resolveDir w o.Dir s.fs = ⟨(w.Abs o.Dir).1, fs, none⟩)
    (hsub : w.Sub Tree.updatableBuildAssets = none)
    (hst : osIsNotExist (osStat w fs (w.Join (w.Abs o.Dir).1 o.Config)) = false)
    (hrd : osReadFile w fs (w.Join (w.Abs o.Dir).1 o.Config) = Except.ok content)
    (hy : yamlUnmarshal w content = Except.ok c) :
    (UpdateBuildAssets w gosod o s).state.trace =
      s.trace ++ [⟨Tree.updatableBuildAssets, (w.Abs o.Dir).1, Params.config c⟩] ∧
    (UpdateBuildAssets w gosod o s).state.fs =
      (gosod Tree.updatableBuildAssets (w.Abs o.Dir).1 (Params.config c) fs).1 ∧
    (UpdateBuildAssets w gosod o s).err =
      (gosod Tree.updatableBuildAssets (w.Abs o.Dir).1 (Params.config c) fs).2 := by
  have hst1 : ¬ osIsNotExist (osStat w fs (w.Join (w.Abs o.Dir).1 o.Config)) = true := by
    rw [hst]
    exact Bool.false_ne_true
  simp only [UpdateBuildAssets, hc, hr, hsub, if_false]
  rw [if_neg hst1]
  simp only [hrd, hy, extract]
  rcases hg : gosod Tree.updatableBuildAssets (w.Abs o.Dir).1 (Params.config c) fs with ⟨fs1, e1⟩
  cases e1 with
  | some e => simp
  | none =>
    simp only
    split_ifs <;> simp [println_trace, println_fs]

/-! ## Generate, then update -/

/-- C2: over the template trees and the extractor of the specification, let
`GenerateBuildAssets` succeed on options `P`, let the snapshot file name be
non-empty, let the YAML parser read back what the encoder wrote for the
resolved snapshot, let `os.Stat` and `os.ReadFile` not fail on the directory
and the snapshot file for reasons of their own, let no later evolving entry
have the target of the snapshot and no evolving entry the target of a
foundation entry.  Then `UpdateBuildAssets` on the same directory with the
snapshot file as config decodes a `Config` that is the snapshot of the options
generate resolved, makes exactly one extractor call, on the evolving tree,
bound to that `Config`, and leaves every foundation file as generate left it.
The five fields without a derived default always equal those of `P`, each of
binary name, comments and identifier equals that of `P` when `P` supplies it,
and for a resolved `P` (one that `applyDefaults` does not change) all eight
equal those of `P`. -/
theorem generate_update_round_trip (w : World) (t : Templates) (P : BuildAssetsOptions)
    (s : State) (silent : Bool)
    (hname : t.snapshotName ≠ "")
    (hgen : (GenerateBuildAssets w (specExtract w t) P s).err = none)
    (hdirFault : w.statFault (w.Abs P.Dir).1 = none)
    (hcfgFault : w.statFault (w.Join (w.Abs P.Dir).1 t.snapshotName) = none)
    (hreadFault : w.readFault (w.Join (w.Abs P.Dir).1 t.snapshotName) = none)
    (hcodec : w.parseYaml (t.printYaml (Config.fields
        (Params.snapshot (Params.options (applyDefaults w P))))) =
      Except.ok (Config.fields (Params.snapshot (Params.options (applyDefaults w P)))))
    (hlast : ∀ e ∈ t.evolvingAfter,
      w.Join (w.Abs P.Dir).1 e.rel ≠ w.Join (w.Abs P.Dir).1 t.snapshotName)
    (hdisj : ∀ e ∈ t.foundation, ∀ e' ∈ t.entries Tree.updatableBuildAssets,
      w.Join (w.Abs P.Dir).1 e'.rel ≠ w.Join (w.Abs P.Dir).1 e.rel) :
    ∃ c : Config,
      (UpdateBuildAssets w (specExtract w t) ⟨P.Dir, t.snapshotName, silent⟩
        (GenerateBuildAssets w (specExtract w t) P s).state).state.trace =
        (GenerateBuildAssets w (specExtract w t) P s).state.trace ++
          [⟨Tree.updatableBuildAssets, (w.Abs P.Dir).1, Params.config c⟩] ∧
      c = Params.snapshot (Params.options (GenerateBuildAssets w (specExtract w t) P s).options) ∧
      (c.ProductCompany = P.ProductCompany ∧ c.ProductName = P.ProductName ∧
        c.ProductDescription = P.ProductDescription ∧
        c.ProductVersion = P.ProductVersion ∧
        c.ProductCopyright = P.ProductCopyright) ∧
      (P.Binary ≠ "" → c.Binary = P.Binary) ∧
      (P.ProductComments ≠ "" → c.ProductComments = P.ProductComments) ∧
      (P.ProductIdentifier ≠ "" → c.ProductIdentifier = P.ProductIdentifier) ∧
      (applyDefaults w P = P → c = Params.snapshot (Params.options P)) ∧
      (∀ e ∈ t.foundation,
        (UpdateBuildAssets w (specExtract w t) ⟨P.Dir, t.snapshotName, silent⟩
          (GenerateBuildAssets w (specExtract w t) P s).state).state.fs
            (w.Join (w.Abs P.Dir).1 e.rel) =
        (GenerateBuildAssets w (specExtract w t) P s).state.fs
          (w.Join (w.Abs P.Dir).1 e.rel)) := by
  have hdir := generate_ok_dir w _ P s hgen
  have habs := resolveDir_err_none w P.Dir s.fs hdir
  have hopt := generate_options w (specExtract w t) P s hdir
  obtain ⟨hsub, fs1, hx1, hx2⟩ := generate_ok_fs w (specExtract w t) P s hgen
  have hsnapEq := snapshot_applyDefaults_dir w P (w.Abs P.Dir).1
  -- the snapshot file after generation
  have hfile : (GenerateBuildAssets w (specExtract w t) P s).state.fs
      (w.Join (w.Abs P.Dir).1 t.snapshotName) =
      some (Node.file (t.printYaml (Config.fields
        (Params.snapshot (Params.options (applyDefaults w P)))))) := by
    have h2 := congrArg Prod.fst hx2
    have h3 := congrArg Prod.snd hx2
    simp only [specExtract] at h2 h3
    rw [← h2, writeAll_snapshot w t _ _ fs1 hlast h3, hsnapEq]
  -- the directory after generation
  have hexists : (GenerateBuildAssets w (specExtract w t) P s).state.fs (w.Abs P.Dir).1 ≠
      none := by
    have h1 := congrArg Prod.fst hx1
    have h2 := congrArg Prod.fst hx2
    simp only [specExtract] at h1 h2
    rw [← h2]
    apply writeAll_keeps_existing
    rw [← h1]
    apply writeAll_keeps_existing
    exact resolveDir_exists w P.Dir s.fs hdir hdirFault
  have hr : resolveDir w P.Dir (GenerateBuildAssets w (specExtract w t) P s).state.fs =
      ⟨(w.Abs P.Dir).1, (GenerateBuildAssets w (specExtract w t) P s).state.fs, none⟩ := by
    rw [resolveDir_abs_ok w P.Dir _ habs]
    have hst : osStat w (GenerateBuildAssets w (specExtract w t) P s).state.fs
        (w.Abs P.Dir).1 = none := by
      unfold osStat
      rw [hdirFault]
      simp only
      cases hq : (GenerateBuildAssets w (specExtract w t) P s).state.fs (w.Abs P.Dir).1 with
      | none => exact absurd hq hexists
      | some n => rfl
    rw [hst]
    simp [osIsNotExist]
  have hst : osIsNotExist (osStat w (GenerateBuildAssets w (specExtract w t) P s).state.fs
      (w.Join (w.Abs P.Dir).1 t.snapshotName)) = false := by
    simp [osStat, hcfgFault, hfile, osIsNotExist]
  have hrd : osReadFile w (GenerateBuildAssets w (specExtract w t) P s).state.fs
      (w.Join (w.Abs P.Dir).1 t.snapshotName) =
      Except.ok (t.printYaml (Config.fields
        (Params.snapshot (Params.options (applyDefaults w P))))) := by
    simp [osReadFile, hreadFault, hfile]
  have hy : yamlUnmarshal w (t.printYaml (Config.fields
        (Params.snapshot (Params.options (applyDefaults w P))))) =
      Except.ok (Params.snapshot (Params.options (applyDefaults w P))) := by
    simp [yamlUnmarshal, hcodec, ofFields_fields]
  obtain ⟨u1, u2, _⟩ := update_reads w (specExtract w t) ⟨P.Dir, t.snapshotName, silent⟩
    (GenerateBuildAssets w (specExtract w t) P s).state _ _ _ hname hr hsub hst hrd hy
  obtain ⟨s1, s2, s3, s4, s5, _, _⟩ := applyDefaults_static w P
  have hB := applyDefaults_Binary w P
  have hK := applyDefaults_Comments w P
  have hI := applyDefaults_Identifier w P
  refine ⟨Params.snapshot (Params.options (applyDefaults w P)), u1, ?_,
    ⟨s4, s1, s2, s3, s5⟩, ?_, ?_, ?_, ?_, ?_⟩
  · rw [hopt, hsnapEq]
  · intro hne
    simp only [Params.snapshot]
    unfold applyDefaults
    simp only
    split_ifs <;> simp_all
  · intro hne
    simp only [Params.snapshot]
    rw [hK, if_neg hne]
  · intro hne
    simp only [Params.snapshot]
    rw [hI, if_neg hne]
  · intro hres
    rw [hres]
  · intro e he
    rw [u2]
    simp only [specExtract]
    exact writeAll_other w _ _ _ _ _ (fun e' he' => hdisj e he e' he')

/-- Witness of C2: generation and update in `/work/build` with every field
supplied. -/
theorem generate_update_round_trip_witness :
    (GenerateBuildAssets posix (specExtract posix sampleTemplates) fullOptions
      workState).err = none ∧
    ∃ c : Config,
      (UpdateBuildAssets posix (specExtract posix sampleTemplates)
        ⟨"build", "appdata.yaml", true⟩
        (GenerateBuildAssets posix (specExtract posix sampleTemplates) fullOptions
          workState).state).state.trace =
        (GenerateBuildAssets posix (specExtract posix sampleTemplates) fullOptions
          workState).state.trace ++
          [⟨Tree.updatableBuildAssets, "/work/build", Params.config c⟩] ∧
      c = Params.snapshot (Params.options fullOptions) := by
  refine ⟨by decide, ?_⟩
  obtain ⟨c, h1, _, _, _, _, _, h7, _⟩ :=
    generate_update_round_trip posix sampleTemplates fullOptions workState true
      (by decide) (by decide) (by decide) (by decide) (by decide) rfl
      (by simp [sampleTemplates])
      (by
        intro e he e' he'
        simp only [sampleTemplates, Templates.entries, Templates.snapshotEntry,
          List.mem_singleton, List.mem_cons, List.singleton_append, List.not_mem_nil,
          or_false] at he he'
        subst he
        rcases he' with h | h <;> subst h <;> decide)
  exact ⟨c, h1, h7 (by decide)⟩

end BuildAssets
